import Mathlib

/-!
Shallow embedding of the Smart Foundation Calculator (`src/app.py`).

Python floats are modelled as rationals (`ℚ`), so arithmetic is exact
real-number semantics; `ℚ` division by zero is total (`x / 0 = 0`) and we
never state a claim at a point where the Python code would raise
`ZeroDivisionError` unless the divergence is itself the point.

The `math` module's transcendental functions (`exp`, `tan`, `pi`) are
external library collaborators, not code of this repository; they are
abstracted as an explicit environment `Transcendental`, so every theorem
quantifying over it holds for any interpretation of those functions.

CPython's `random.Random(seed)` is likewise external: it is abstracted as
an infinite stream of unit-interval draws `stream : Nat → ℚ` together with
a cursor `pos`; `random.Random.uniform(a, b)` is, per CPython,
`a + (b - a) * random()`, consuming one raw draw.

Strings are modelled as `List Char`; `str.split(",")` keeps empty
segments and `str.strip()` trims whitespace at both ends, as in Python.
-/

namespace App

/-- Environment abstracting `math.exp`, `math.tan` and `math.pi` (the Python
standard library, external to this repository). -/
structure Transcendental where
  exp : ℚ → ℚ
  tan : ℚ → ℚ
  pi : ℚ

/-- `math.radians(x) = x * pi / 180`. -/
def radians (T : Transcendental) (x : ℚ) : ℚ :=
  x * T.pi / 180

/-- Module-level constant `default_FS_bearing = 3.0` (src/app.py line 10). -/
def default_FS_bearing : ℚ := 3

/-- Module-level constant `FS_slide_req = 1.5` (src/app.py line 11). -/
def FS_slide_req : ℚ := 3 / 2

/-- Module-level constant `FS_ot_req = 2.0` (src/app.py line 12). -/
def FS_ot_req : ℚ := 2

/-- Module-level constant `settle_limit = 25.0` (src/app.py line 13). -/
def settle_limit : ℚ := 25

/-- `bearing_capacity_q_ult(c, gamma, Df, B, phi)` (src/app.py lines 19-31):
Terzaghi bearing capacity.  `Nc = 5.14`; for `phi > 0`,
`Nq = exp(pi * tan(phi_rad)) * tan(radians(45 + phi/2))^2` and
`Ngamma = 2 * (Nq + 1) * tan(phi_rad)`; for `phi <= 0`, `Nq = 1`,
`Ngamma = 0`.  Returns `c*Nc + gamma*Df*Nq + 0.5*gamma*B*Ngamma`.
No input validation is performed by the source. -/
def bearing_capacity_q_ult (T : Transcendental) (c gamma Df B phi : ℚ) : ℚ :=
  let phi_rad := radians T phi
  let Nc : ℚ := 5.14
  if phi > 0 then
    let Nq := T.exp (T.pi * T.tan phi_rad) * (T.tan (radians T (45 + phi / 2))) ^ 2
    let Ngamma := 2 * (Nq + 1) * T.tan phi_rad
    c * Nc + gamma * Df * Nq + 0.5 * gamma * B * Ngamma
  else
    c * Nc + gamma * Df * 1 + 0.5 * gamma * B * 0

/-- `sliding_fs(P, H, mu)` (src/app.py lines 34-36):
`(P * mu) / H if H != 0 else 999`. -/
def sliding_fs (P H mu : ℚ) : ℚ :=
  if H ≠ 0 then P * mu / H else 999

/-- `overturning_fs(P, B, M)` (src/app.py lines 39-43):
`MR = P * (B / 2); MO = M; MR / MO if MO != 0 else 999`. -/
def overturning_fs (P B M : ℚ) : ℚ :=
  let MR := P * (B / 2)
  let MO := M
  if MO ≠ 0 then MR / MO else 999

/-- `settlement_elastic(P, B, L, Es, nu, influence_I)` (src/app.py lines 46-50):
`A = B * L; q = P / A; influence_I * q * B * (1 - nu**2) / Es`.
No input validation is performed by the source. -/
def settlement_elastic (P B L Es nu influence_I : ℚ) : ℚ :=
  let A := B * L
  let q := P / A
  influence_I * q * B * (1 - nu ^ 2) / Es

/-! ### Input parser (src/app.py lines 53-63) -/

/-- Python `str.split(",")` on a character-list model of strings:
splits at every comma, keeping empty segments (`"".split(",") == [""]`). -/
def splitComma : List Char → List (List Char)
  | [] => [[]]
  | ch :: rest =>
    if ch = ',' then [] :: splitComma rest
    else
      match splitComma rest with
      | t :: ts => (ch :: t) :: ts
      | [] => [[ch]]

/-- Python `str.strip()`: drop whitespace from both ends. -/
def pyStrip (cs : List Char) : List Char :=
  ((cs.dropWhile Char.isWhitespace).reverse.dropWhile Char.isWhitespace).reverse

/-- Digits of a character list prefix, as numeric values. -/
def takeDigits : List Char → List Nat × List Char
  | [] => ([], [])
  | ch :: rest =>
    if ch.isDigit then
      match takeDigits rest with
      | (ds, r) => ((ch.toNat - 48) :: ds, r)
    else ([], ch :: rest)

/-- Value of a digit list read most-significant-first. -/
def digitsToNat (ds : List Nat) : Nat :=
  ds.foldl (fun a d => a * 10 + d) 0

/-- Shape of a finite Python float literal: mantissa sign, integer digits,
fractional digits, and an optional exponent (sign, digits). -/
structure FloatLit where
  negative : Bool
  ip : List Nat
  fp : List Nat
  es : Option (Bool × List Nat)
deriving DecidableEq

/-- Modelled from the spec and CPython: the syntactic part of the builtin
`float(·)` applied to an already-stripped token (the builtin is external to
this repository).  Accepts `[sign] (digits [. digits] | . digits)
[(e|E) [sign] digits]`; anything else (e.g. `"abc"`, `""`, `"1e"`) fails.
Non-finite literals (`inf`, `nan`) and digit-group underscores are outside
this rational model and are not used by any claim. -/
def pyFloatParse (cs : List Char) : Option FloatLit :=
  let sgn : Bool × List Char :=
    match cs with
    | '+' :: r => (false, r)
    | '-' :: r => (true, r)
    | r => (false, r)
  let ipart := takeDigits sgn.2
  let fpart : List Nat × List Char :=
    match ipart.2 with
    | '.' :: r => takeDigits r
    | r => ([], r)
  if ipart.1.isEmpty ∧ fpart.1.isEmpty then none
  else
    match fpart.2 with
    | [] => some ⟨sgn.1, ipart.1, fpart.1, none⟩
    | e :: r =>
      if e = 'e' ∨ e = 'E' then
        let esgn : Bool × List Char :=
          match r with
          | '+' :: r2 => (false, r2)
          | '-' :: r2 => (true, r2)
          | r2 => (false, r2)
        let epart := takeDigits esgn.2
        if epart.1.isEmpty ∨ ¬ epart.2.isEmpty then none
        else some ⟨sgn.1, ipart.1, fpart.1, some (esgn.1, epart.1)⟩
      else none

/-- Exact rational value of a finite float literal. -/
def floatVal (f : FloatLit) : ℚ :=
  let mant : ℚ := (digitsToNat f.ip : ℚ) + (digitsToNat f.fp : ℚ) / 10 ^ f.fp.length
  let sgned : ℚ := if f.negative then -mant else mant
  match f.es with
  | none => sgned
  | some (en, ed) =>
    sgned * (10 : ℚ) ^ (if en then -(digitsToNat ed : Int) else (digitsToNat ed : Int))

/-- The builtin `float(·)` on an already-stripped token: parse, then value. -/
def pyFloat (cs : List Char) : Option ℚ :=
  (pyFloatParse cs).map floatVal

/-- `safe_float_list(text)` (src/app.py lines 53-63): split on commas, strip
each token, `float(...)` it; parsed values go to the first list, tokens whose
parse fails go (stripped) to the second, both in input order. -/
def safe_float_list (text : List Char) : List ℚ × List (List Char) :=
  let parts := splitComma text
  parts.foldl
    (fun acc x =>
      match pyFloat (pyStrip x) with
      | some v => (acc.1 ++ [v], acc.2)
      | none => (acc.1, acc.2 ++ [pyStrip x]))
    ([], [])

/-! ### Monte Carlo reliability engine (src/app.py lines 239-286) -/

/-- The fixed (non-swept) inputs of the Full Foundation Design mode
(src/app.py lines 205-237): geometry, soil, loads, stiffness, uncertainty
percentages and the configurable bearing safety factor.  The candidate
width `B` is swept separately. -/
structure Params where
  c : ℚ
  phi : ℚ
  gamma : ℚ
  L : ℚ
  Df : ℚ
  P : ℚ
  H : ℚ
  M : ℚ
  Es : ℚ
  nu : ℚ
  mu : ℚ
  influence_I : ℚ
  g_var : ℚ
  P_var : ℚ
  Es_var : ℚ
  FS_bearing : ℚ

/-- State of the single shared `random.Random(seed)` generator
(src/app.py line 245): the seed determines the whole raw draw stream
(abstracted as `stream`), and `pos` is how many raw draws were consumed. -/
structure RngState where
  stream : Nat → ℚ
  pos : Nat

/-- The value `a + (b - a) * x` that `random.Random.uniform(a, b)` computes
from one raw draw `x` of `random()` (CPython's implementation). -/
def uniformVal (a b x : ℚ) : ℚ :=
  a + (b - a) * x

/-- `rng.uniform(a, b)`: consume one raw draw from the shared stream. -/
def rngUniform (a b : ℚ) (s : RngState) : ℚ × RngState :=
  (uniformVal a b (s.stream s.pos), ⟨s.stream, s.pos + 1⟩)

/-- The three perturbed draws of one trial (src/app.py lines 253-255), in
the source's order: `gamma_r` then `Es_r` then `P_r`, each
`nominal * rng.uniform(1 - var/100, 1 + var/100)`. -/
def sampleTriple (pm : Params) (s : RngState) : (ℚ × ℚ × ℚ) × RngState :=
  let g := rngUniform (1 - pm.g_var / 100) (1 + pm.g_var / 100) s
  let e := rngUniform (1 - pm.Es_var / 100) (1 + pm.Es_var / 100) g.2
  let p := rngUniform (1 - pm.P_var / 100) (1 + pm.P_var / 100) e.2
  ((pm.gamma * g.1, pm.Es * e.1, pm.P * p.1), p.2)

/-- The four pass/fail checks of one trial (src/app.py lines 257-276) on a
sampled `(gamma_r, Es_r, P_r)`: bearing `q_allow >= q_apply`, sliding
`FSs >= FS_slide_req`, overturning `FSo >= FS_ot_req`, settlement
`s <= settle_limit`, conjoined with `and`. -/
def trialPasses (T : Transcendental) (pm : Params) (B gamma_r Es_r P_r : ℚ) : Bool :=
  let q_ult := bearing_capacity_q_ult T pm.c gamma_r pm.Df B pm.phi
  let q_allow := q_ult / pm.FS_bearing
  let q_apply := P_r / (B * pm.L)
  let FSs := sliding_fs P_r pm.H pm.mu
  let FSo := overturning_fs P_r B pm.M
  let s_mm := settlement_elastic P_r B pm.L Es_r pm.nu pm.influence_I * 1000
  decide (q_allow ≥ q_apply) && decide (FSs ≥ FS_slide_req) &&
    decide (FSo ≥ FS_ot_req) && decide (s_mm ≤ settle_limit)

/-- One Monte Carlo trial (src/app.py lines 252-276): draw the perturbed
triple from the shared stream, then evaluate the four checks. -/
def runTrial (T : Transcendental) (pm : Params) (B : ℚ) (s : RngState) :
    Bool × RngState :=
  let smp := sampleTriple pm s
  (trialPasses T pm B smp.1.1 smp.1.2.1 smp.1.2.2, smp.2)

/-- The inner `for _ in range(iterations)` loop for one width
(src/app.py lines 250-279): run the trials in stream order and count the
passing ones (`safe_count`). -/
def runTrials (T : Transcendental) (pm : Params) (B : ℚ) :
    Nat → RngState → Nat × RngState
  | 0, s => (0, s)
  | m + 1, s =>
    let r1 := runTrial T pm B s
    let r2 := runTrials T pm B m r1.2
    (r2.1 + (if r1.1 then 1 else 0), r2.2)

/-- The outer width loop (src/app.py lines 249-284): for each width `B` in
order, run `iterations` trials against the single shared generator and
append `(B, (safe_count / iterations) * 100)`.  `iterations` is the
Python `int` from the slider; `range(iterations)` is empty when
`iterations <= 0`, hence `iterations.toNat` trials. -/
def runStudy (T : Transcendental) (pm : Params) (iterations : Int) :
    List ℚ → RngState → List (ℚ × ℚ) × RngState
  | [], s => ([], s)
  | B :: rest, s =>
    let r1 := runTrials T pm B iterations.toNat s
    let r2 := runStudy T pm iterations rest r1.2
    ((B, ((r1.1 : ℚ) / (iterations : ℚ)) * 100) :: r2.1, r2.2)

/-- The "Run Full Foundation Design" button handler (src/app.py
lines 240-286): parse the width text; on an empty parse result show
`"Invalid B list!"` and run nothing, otherwise create the seeded generator
(cursor 0) and run the study.  The only validation performed is the
emptiness check on the parsed width list. -/
def runFullDesign (T : Transcendental) (pm : Params) (B_text : List Char)
    (iterations : Int) (seedStream : Nat → ℚ) :
    Except (List Char) (List (ℚ × ℚ)) :=
  let parsed := safe_float_list B_text
  if parsed.1.isEmpty then Except.error ("Invalid B list!".data)
  else Except.ok (runStudy T pm iterations parsed.1 ⟨seedStream, 0⟩).1

/-! ### Stream-indexed characterization of the engine -/

/-- The perturbed triple of the trial whose first raw draw sits at stream
index `j`: unit weight from draw `j`, modulus from draw `j + 1`, load from
draw `j + 2`. -/
def sampleAt (pm : Params) (u : Nat → ℚ) (j : Nat) : ℚ × ℚ × ℚ :=
  (pm.gamma * uniformVal (1 - pm.g_var / 100) (1 + pm.g_var / 100) (u j),
   pm.Es * uniformVal (1 - pm.Es_var / 100) (1 + pm.Es_var / 100) (u (j + 1)),
   pm.P * uniformVal (1 - pm.P_var / 100) (1 + pm.P_var / 100) (u (j + 2)))

/-- Outcome of the trial whose raw draws start at stream index `j`. -/
def trialAt (T : Transcendental) (pm : Params) (B : ℚ) (u : Nat → ℚ) (j : Nat) : Bool :=
  trialPasses T pm B (sampleAt pm u j).1 (sampleAt pm u j).2.1 (sampleAt pm u j).2.2

/-! ### Concrete instances used to evaluate the model -/

/-- A concrete interpretation of the `math` environment for evaluating the
model at `phi = 0`, where the source's cohesive branch consults none of its
fields. -/
def Tzero : Transcendental := ⟨fun _ => 0, fun _ => 0, 0⟩

/-- The constant raw-draw stream 0 (every `uniform(a, b)` yields `a`). -/
def uZ : Nat → ℚ := fun _ => 0

/-- A raw-draw stream whose first three draws (one trial) are 0 and all
later draws are 1. -/
def u01 : Nat → ℚ := fun k => if k < 3 then 0 else 1

/-- Concrete Full Foundation Design inputs: cohesive soil (`phi = 0`),
no horizontal load or moment, only the vertical load perturbed (±10%).
With `B = 2` the bearing check passes exactly when the sampled load is at
most `604/15 * 4 ≈ 161.07`. -/
def pm0 : Params :=
  { c := 20, phi := 0, gamma := 18, L := 2, Df := 1, P := 160, H := 0, M := 0,
    Es := 30000, nu := 0, mu := 1 / 2, influence_I := 1,
    g_var := 0, P_var := 10, Es_var := 0, FS_bearing := 3 }

/-- `pm0` with every uncertainty percentage zero. -/
def pmZ : Params :=
  { c := 20, phi := 0, gamma := 18, L := 2, Df := 1, P := 160, H := 0, M := 0,
    Es := 30000, nu := 0, mu := 1 / 2, influence_I := 1,
    g_var := 0, P_var := 0, Es_var := 0, FS_bearing := 3 }

/-! ### Helper lemmas -/

lemma sampleTriple_eq (pm : Params) (s : RngState) :
    sampleTriple pm s = (sampleAt pm s.stream s.pos, ⟨s.stream, s.pos + 3⟩) := rfl

lemma runTrial_eq (T : Transcendental) (pm : Params) (B : ℚ) (s : RngState) :
    runTrial T pm B s = (trialAt T pm B s.stream s.pos, ⟨s.stream, s.pos + 3⟩) := rfl

lemma runTrials_eq (T : Transcendental) (pm : Params) (B : ℚ) :
    ∀ (m : Nat) (s : RngState),
      runTrials T pm B m s =
        ((List.range m).countP (fun t => trialAt T pm B s.stream (s.pos + 3 * t)),
         ⟨s.stream, s.pos + 3 * m⟩)
  | 0, s => by simp [runTrials]
  | m + 1, s => by
    rw [runTrials, runTrial_eq, runTrials_eq T pm B m ⟨s.stream, s.pos + 3⟩]
    have hfun : (fun t => trialAt T pm B s.stream (s.pos + 3 + 3 * t)) =
        fun t => trialAt T pm B s.stream (s.pos + 3 * (t + 1)) := by
      funext t
      have : s.pos + 3 + 3 * t = s.pos + 3 * (t + 1) := by omega
      rw [this]
    refine Prod.ext ?_ ?_
    · simp only [hfun, List.range_succ_eq_map, List.countP_cons, List.countP_map]
      have h0 : s.pos + 3 * 0 = s.pos := by omega
      simp [Function.comp_def, h0, Nat.add_comm]
    · have : s.pos + 3 + 3 * m = s.pos + 3 * (m + 1) := by omega
      simp [this]

lemma runStudy_eq (T : Transcendental) (pm : Params) (n : Int) :
    ∀ (Bs : List ℚ) (s : RngState),
      runStudy T pm n Bs s =
        ((List.range Bs.length).map (fun i =>
            (Bs.getD i 0,
             (((List.range n.toNat).countP (fun t =>
                 trialAt T pm (Bs.getD i 0) s.stream
                   (s.pos + 3 * n.toNat * i + 3 * t)) : ℚ) / (n : ℚ)) * 100)),
         ⟨s.stream, s.pos + 3 * n.toNat * Bs.length⟩)
  | [], s => by simp [runStudy]
  | B :: Bs, s => by
    rw [runStudy, runTrials_eq, runStudy_eq T pm n Bs ⟨s.stream, s.pos + 3 * n.toNat⟩]
    refine Prod.ext ?_ ?_
    · simp only [List.length_cons, List.range_succ_eq_map, List.map_cons, List.map_map]
      refine congrArg₂ _ ?_ ?_
      · have h0 : ∀ t, s.pos + 3 * n.toNat * 0 + 3 * t = s.pos + 3 * t := by
          intro t; omega
        simp [h0]
      · refine List.map_congr_left ?_
        intro i _
        have harg : ∀ t, s.pos + 3 * n.toNat + 3 * n.toNat * i + 3 * t =
            s.pos + 3 * n.toNat * (i + 1) + 3 * t := by intro t; ring
        simp [Function.comp_def, harg]
    · have : s.pos + 3 * n.toNat + 3 * n.toNat * Bs.length =
        s.pos + 3 * n.toNat * (Bs.length + 1) := by ring
      simp [this]

lemma safe_float_list_foldl (parts : List (List Char)) (acc : List ℚ × List (List Char)) :
    parts.foldl
      (fun acc x =>
        match pyFloat (pyStrip x) with
        | some v => (acc.1 ++ [v], acc.2)
        | none => (acc.1, acc.2 ++ [pyStrip x]))
      acc =
    (acc.1 ++ parts.filterMap (fun x => pyFloat (pyStrip x)),
     acc.2 ++ ((parts.filter (fun x => (pyFloat (pyStrip x)).isNone)).map pyStrip)) := by
  induction parts generalizing acc with
  | nil => simp
  | cons x xs ih =>
    cases h : pyFloat (pyStrip x) with
    | none =>
      simp only [List.foldl_cons, h, ih, List.filterMap_cons, List.filter_cons,
        Option.isNone_none, if_pos, List.map_cons]
      simp
    | some v =>
      simp only [List.foldl_cons, h, ih, List.filterMap_cons, List.filter_cons,
        Option.isNone_some, List.map_cons]
      simp

lemma trialAt_congr (T : Transcendental) (pm : Params) (B : ℚ) {u v : Nat → ℚ} {j : Nat}
    (h0 : u j = v j) (h1 : u (j + 1) = v (j + 1)) (h2 : u (j + 2) = v (j + 2)) :
    trialAt T pm B u j = trialAt T pm B v j := by
  simp [trialAt, sampleAt, h0, h1, h2]

lemma countP_range_congr {p q : Nat → Bool} {m : Nat} (h : ∀ t, t < m → p t = q t) :
    (List.range m).countP p = (List.range m).countP q := by
  induction m with
  | zero => rfl
  | succ m ih =>
    rw [List.range_succ, List.countP_append, List.countP_append,
      ih (fun t ht => h t (by omega))]
    simp [List.countP_cons, h m (by omega)]

/-! ### Claim theorems -/

/-- C1: for every sampled `(gamma_r, Es_r, P_r)` triple (the one the trial
draws from the stream at state `s`), candidate width `B` and fixed
parameters, the Monte Carlo trial passes if and only if all four checks
pass simultaneously: bearing
`bearing_capacity_q_ult(c, gamma_r, Df, B, phi) / FS_bearing >= P_r / (B*L)`,
sliding `sliding_fs(P_r, H, mu) >= FS_slide_req`, overturning
`overturning_fs(P_r, B, M) >= FS_ot_req`, and settlement
`settlement_elastic(P_r, B, L, Es_r, nu, I) * 1000 <= settle_limit`; the
outcome is the logical AND of the four. -/
theorem trial_pass_iff (T : Transcendental) (pm : Params) (B : ℚ) (s : RngState) :
    (runTrial T pm B s).1 = true ↔
      (bearing_capacity_q_ult T pm.c (sampleTriple pm s).1.1 pm.Df B pm.phi / pm.FS_bearing ≥
          (sampleTriple pm s).1.2.2 / (B * pm.L) ∧
        sliding_fs (sampleTriple pm s).1.2.2 pm.H pm.mu ≥ FS_slide_req ∧
        overturning_fs (sampleTriple pm s).1.2.2 B pm.M ≥ FS_ot_req ∧
        settlement_elastic (sampleTriple pm s).1.2.2 B pm.L (sampleTriple pm s).1.2.1 pm.nu
            pm.influence_I * 1000 ≤ settle_limit) := by
  simp [runTrial, trialPasses, Bool.and_eq_true, decide_eq_true_eq, and_assoc, ge_iff_le]

/-- C5: `sliding_fs(P, 0, mu) = 999` and `overturning_fs(P, B, 0) = 999` for
every vertical load, friction coefficient and width: a finite sentinel, not
infinity, NaN or an error. -/
theorem sentinel_no_demand :
    ∀ P mu B : ℚ, sliding_fs P 0 mu = 999 ∧ overturning_fs P B 0 = 999 := by
  intro P mu B
  constructor <;> simp [sliding_fs, overturning_fs]

/-- C9: for friction angle exactly 0 the bearing capacity uses `Nc = 5.14`,
`Nq = 1`, `Ngamma = 0` without consulting the transcendental environment
(the `phi > 0` branch), so the result is the same for every interpretation
`T`, and `bearing_capacity_q_ult(20, 18, 1, 2, 0) = 120.8 = 604/5` exactly. -/
theorem bearing_cohesive_exact :
    (∀ T : Transcendental, bearing_capacity_q_ult T 20 18 1 2 0 = 604 / 5) ∧
    (∀ (T : Transcendental) (c gamma Df B : ℚ),
        bearing_capacity_q_ult T c gamma Df B 0 =
          c * 5.14 + gamma * Df * 1 + 0.5 * gamma * B * 0) := by
  constructor
  · intro T
    norm_num [bearing_capacity_q_ult]
  · intro T c gamma Df B
    norm_num [bearing_capacity_q_ult]

/-- C6 counterexample: the claim says every Formula Library function
receiving `width*length <= 0` or a non-positive width fails with an explicit
error; but the source performs no validation: at width `B = -2` (so
`B*L = -4 < 0`) both `bearing_capacity_q_ult` and `settlement_elastic`
silently return ordinary finite values. -/
theorem formula_no_validation_cex :
    bearing_capacity_q_ult Tzero 20 18 1 (-2) 0 = 604 / 5 ∧
    settlement_elastic 500 (-2) 2 30000 (3 / 10) 1 = 91 / 12000 := by
  constructor
  · norm_num [bearing_capacity_q_ult]
  · norm_num [settlement_elastic]

/-- C6 amended: the Formula Library functions validate nothing and are
total: with `width = 0`, with `width*length < 0`, and with negative modulus
they silently return the closed-form value (no `InvalidGeometry` or
`InvalidMaterial` error exists in the code; a Python run would raise
`ZeroDivisionError` only at a divisor exactly 0). -/
theorem formula_total_on_invalid :
    bearing_capacity_q_ult Tzero 20 18 1 0 0 = 604 / 5 ∧
    settlement_elastic 500 (-1) 2 30000 (3 / 10) 1 = 91 / 12000 ∧
    settlement_elastic 500 2 2 (-30000) (3 / 10) 1 = -(91 / 12000) := by
  refine ⟨?_, ?_, ?_⟩
  · norm_num [bearing_capacity_q_ult]
  · norm_num [settlement_elastic]
  · norm_num [settlement_elastic]

/-- C8: `safe_float_list` splits the text on commas, strips each token and
parses it as a float; parsed numbers are returned in order, tokens whose
parse fails are collected (stripped) in order in a separate rejected list
and never abort the parse; in particular on `"1.5,2.0,abc,2.5"` it returns
`([1.5, 2.0, 2.5], ["abc"])`. -/
theorem parse_width_list_spec :
    (∀ text : List Char,
        safe_float_list text =
          ((splitComma text).filterMap (fun x => pyFloat (pyStrip x)),
           ((splitComma text).filter (fun x => (pyFloat (pyStrip x)).isNone)).map pyStrip)) ∧
    safe_float_list ("1.5,2.0,abc,2.5".data) = ([3 / 2, 2, 5 / 2], ["abc".data]) := by
  constructor
  · intro text
    rw [safe_float_list, safe_float_list_foldl]
    simp
  · have hsplit : splitComma ("1.5,2.0,abc,2.5".data) =
        ["1.5".data, "2.0".data, "abc".data, "2.5".data] := by decide
    have h1 : pyFloatParse (pyStrip ("1.5".data)) = some ⟨false, [1], [5], none⟩ := by decide
    have h2 : pyFloatParse (pyStrip ("2.0".data)) = some ⟨false, [2], [0], none⟩ := by decide
    have h3 : pyFloatParse (pyStrip ("abc".data)) = none := by decide
    have h3' : pyFloatParse ['a', 'b', 'c'] = none := by decide
    have h4 : pyFloatParse (pyStrip ("2.5".data)) = some ⟨false, [2], [5], none⟩ := by decide
    have h5 : pyStrip ("abc".data) = "abc".data := by decide
    simp only [safe_float_list, hsplit, List.foldl_cons, List.foldl_nil, pyFloat,
      h1, h2, h3, h3', h4, h5, Option.map_some, Option.map_none]
    norm_num [floatVal, digitsToNat, List.foldl]

/-- C2: for a non-empty width list and `iterations >= 1`, the study yields
exactly one result per candidate width, in input order: result `i` pairs the
`i`-th width with `100 * passCount / iterations`, where `passCount` counts
the passing trials among the `iterations` trials run for that width (trial
`t` of width `i` reads the shared stream starting at raw position
`3*iterations*i + 3*t`). -/
theorem reliability_results (T : Transcendental) (pm : Params) (Bs : List ℚ) (n : Int)
    (s : RngState) (_hB : Bs ≠ []) (_hn : 1 ≤ n) :
    (runStudy T pm n Bs s).1 =
      (List.range Bs.length).map (fun i =>
        (Bs.getD i 0,
         100 * (((List.range n.toNat).countP (fun t =>
             trialAt T pm (Bs.getD i 0) s.stream (s.pos + 3 * n.toNat * i + 3 * t)) : ℚ)) /
           (n : ℚ))) := by
  rw [runStudy_eq]
  refine List.map_congr_left ?_
  intro i _
  refine Prod.ext rfl ?_
  ring

/-- C2 witness: the characterization at `T = Tzero`, `pm = pm0`,
widths `[1.5, 2]`, one iteration, stream `u01`. -/
theorem reliability_results_witness :
    (runStudy Tzero pm0 1 [3 / 2, 2] ⟨u01, 0⟩).1 =
      (List.range ([3 / 2, 2] : List ℚ).length).map (fun i =>
        (([3 / 2, 2] : List ℚ).getD i 0,
         100 * (((List.range (1 : Int).toNat).countP (fun t =>
             trialAt Tzero pm0 (([3 / 2, 2] : List ℚ).getD i 0) u01
               (0 + 3 * (1 : Int).toNat * i + 3 * t)) : ℚ)) / ((1 : Int) : ℚ))) :=
  reliability_results Tzero pm0 [3 / 2, 2] 1 ⟨u01, 0⟩ (by simp) (by norm_num)

/-- C3: the reliability study is a deterministic function of the seeded
stream: the three perturbed draws of each trial consume the source in the
fixed order unit weight (raw draw `pos`), modulus (`pos + 1`), load
(`pos + 2`); and two runs whose streams agree on the `3 * iterations *
numWidths` consumed raw draws produce identical result sequences — in
particular, identical seed means identical stream, hence bit-identical
results. -/
theorem study_reproducible :
    (∀ (pm : Params) (s : RngState), (sampleTriple pm s).1 = sampleAt pm s.stream s.pos) ∧
    (∀ (T : Transcendental) (pm : Params) (n : Int) (Bs : List ℚ) (u v : Nat → ℚ),
        (∀ k, k < 3 * n.toNat * Bs.length → u k = v k) →
        (runStudy T pm n Bs ⟨u, 0⟩).1 = (runStudy T pm n Bs ⟨v, 0⟩).1) := by
  constructor
  · intro pm s
    rw [sampleTriple_eq]
  · intro T pm n Bs u v h
    rw [runStudy_eq, runStudy_eq]
    refine List.map_congr_left ?_
    intro i hi
    rw [List.mem_range] at hi
    refine Prod.ext rfl ?_
    have hcnt : (List.range n.toNat).countP (fun t =>
          trialAt T pm (Bs.getD i 0) u (0 + 3 * n.toNat * i + 3 * t)) =
        (List.range n.toNat).countP (fun t =>
          trialAt T pm (Bs.getD i 0) v (0 + 3 * n.toNat * i + 3 * t)) := by
      refine countP_range_congr ?_
      intro t ht
      have hb : ∀ d, d < 3 → 0 + 3 * n.toNat * i + 3 * t + d < 3 * n.toNat * Bs.length := by
        intro d hd
        have h2 : 3 * n.toNat * (i + 1) ≤ 3 * n.toNat * Bs.length :=
          Nat.mul_le_mul_left _ (by omega)
        have h3 : 3 * n.toNat * i + 3 * n.toNat = 3 * n.toNat * (i + 1) := by ring
        omega
      exact trialAt_congr T pm _ (h _ (by simpa using hb 0 (by omega)))
        (h _ (hb 1 (by omega))) (h _ (hb 2 (by omega)))
    rw [hcnt]

/-- C3 witness: streams `u01` and `uZ` differ from raw draw 3 on, but agree
on the 3 draws consumed by a one-width, one-iteration study, so the results
coincide. -/
theorem study_reproducible_witness :
    (runStudy Tzero pm0 1 [2] ⟨u01, 0⟩).1 = (runStudy Tzero pm0 1 [2] ⟨uZ, 0⟩).1 :=
  study_reproducible.2 Tzero pm0 1 [2] u01 uZ (by
    intro k hk
    have hk3 : k < 3 := by simpa using hk
    simp [u01, uZ, hk3])

/-- C4 counterexample: the claim says a width's `(width, reliabilityPercent)`
pair is independent of the other entries of the width list; but all widths
share one sequential random stream, so with stream `u01` (first trial draws
0, later draws 1), one iteration and parameters `pm0`, width 2 alone yields
`(2, 100)` while width 2 after width 1.5 yields `(2, 0)`: adding an entry
before it changes its result. -/
theorem cross_width_cex :
    (runStudy Tzero pm0 1 [2] ⟨u01, 0⟩).1 = [(2, 100)] ∧
    (runStudy Tzero pm0 1 [3 / 2, 2] ⟨u01, 0⟩).1 = [(3 / 2, 0), (2, 0)] := by
  constructor
  · rw [runStudy_eq]
    norm_num [List.range_succ, trialAt, sampleAt, trialPasses, uniformVal, pm0, Tzero, u01,
      sliding_fs, overturning_fs, settlement_elastic, bearing_capacity_q_ult, radians,
      FS_slide_req, FS_ot_req, settle_limit]
  · rw [runStudy_eq]
    norm_num [List.range_succ, trialAt, sampleAt, trialPasses, uniformVal, pm0, Tzero, u01,
      sliding_fs, overturning_fs, settlement_elastic, bearing_capacity_q_ult, radians,
      FS_slide_req, FS_ot_req, settle_limit]

/-- C4 amended: a width's `(width, reliabilityPercent)` pair depends on its
position, not on the other entries' values: every width consumes exactly
`3*iterations` raw draws, so if the same width value sits at the same index
`i` in two width lists, the two studies produce the same result pair at
index `i` regardless of the other entries; changing the width's index (as in
the counterexample) does change its draws and may change its result. -/
theorem width_result_depends_on_index (T : Transcendental) (pm : Params) (n : Int)
    (s : RngState) (Bs Bs' : List ℚ) (i : Nat)
    (h : i < Bs.length) (h' : i < Bs'.length) (hw : Bs.getD i 0 = Bs'.getD i 0) :
    (runStudy T pm n Bs s).1.getD i (0, 0) = (runStudy T pm n Bs' s).1.getD i (0, 0) := by
  rw [runStudy_eq, runStudy_eq]
  rw [List.getD_eq_getElem?_getD, List.getD_eq_getElem?_getD]
  simp only [List.getElem?_map, List.getElem?_range, h, h', Option.map_some', Option.getD_some]
  rw [hw]

/-- C4 amended witness: width 2 at index 1 gives the same pair whether the
entry before it is 1 or 5. -/
theorem width_result_depends_on_index_witness :
    (runStudy Tzero pm0 1 [1, 2] ⟨u01, 0⟩).1.getD 1 (0, 0) =
      (runStudy Tzero pm0 1 [5, 2] ⟨u01, 0⟩).1.getD 1 (0, 0) :=
  width_result_depends_on_index Tzero pm0 1 ⟨u01, 0⟩ [1, 2] [5, 2] 1
    (by norm_num) (by norm_num) (by norm_num)

/-- C10: when all three uncertainty percentages are 0, the sampled triple
equals the nominal `(gamma, Es, P)` exactly, every trial for a width is
identical, and each width's reliability percentage is exactly 0 or exactly
100 (given `iterations >= 1`). -/
theorem zero_uncertainty_exact (T : Transcendental) (pm : Params) (n : Int) (Bs : List ℚ)
    (s : RngState) (hg : pm.g_var = 0) (hP : pm.P_var = 0) (hE : pm.Es_var = 0)
    (hn : 1 ≤ n) :
    (sampleTriple pm s).1 = (pm.gamma, pm.Es, pm.P) ∧
    ∀ r ∈ (runStudy T pm n Bs s).1, r.2 = 0 ∨ r.2 = 100 := by
  constructor
  · rw [sampleTriple_eq]
    simp [sampleAt, uniformVal, hg, hP, hE]
  · intro r hr
    rw [runStudy_eq] at hr
    simp only [List.mem_map, List.mem_range] at hr
    obtain ⟨i, _, rfl⟩ := hr
    have hconst : ∀ j, trialAt T pm (Bs.getD i 0) s.stream j =
        trialPasses T pm (Bs.getD i 0) pm.gamma pm.Es pm.P := by
      intro j
      simp [trialAt, sampleAt, uniformVal, hg, hP, hE]
    rcases hb : trialPasses T pm (Bs.getD i 0) pm.gamma pm.Es pm.P with _ | _
    · left
      have hc : (List.range n.toNat).countP (fun t =>
          trialAt T pm (Bs.getD i 0) s.stream (s.pos + 3 * n.toNat * i + 3 * t)) = 0 := by
        have hpt : ∀ t, t < n.toNat →
            (fun t => trialAt T pm (Bs.getD i 0) s.stream
              (s.pos + 3 * n.toNat * i + 3 * t)) t = (fun _ => false) t := by
          intro t _
          simp only [hconst, hb]
        rw [countP_range_congr hpt]
        simp
      simp only [hc]
      norm_num
    · right
      have hm : ((n.toNat : ℚ)) = (n : ℚ) := by
        have h1 : ((n.toNat : ℤ)) = n := Int.toNat_of_nonneg (by omega)
        exact_mod_cast h1
      have hn0 : (n : ℚ) ≠ 0 := by
        have h1 : (0 : ℤ) < n := by omega
        have h2 : (0 : ℚ) < (n : ℚ) := by exact_mod_cast h1
        exact ne_of_gt h2
      simp only [hconst, hb, List.countP_true, List.length_range]
      rw [hm, div_self hn0, one_mul]

/-- C10 witness: with `pmZ` (all percentage bounds 0) the sampled triple is
the nominal one. -/
theorem zero_uncertainty_exact_witness :
    (sampleTriple pmZ ⟨uZ, 0⟩).1 = (pmZ.gamma, pmZ.Es, pmZ.P) :=
  (zero_uncertainty_exact Tzero pmZ 1 [2] ⟨uZ, 0⟩ rfl rfl rfl (by norm_num)).1

/-- C7 counterexample: the claim says `iterations <= 0` raises
`InvalidConfiguration` and no results are produced; but the source never
validates `iterations` (the UI slider's minimum is 50): with
`iterations = -1` and width text `"2.0"` the study runs (zero trials per
width) and produces the result list `[(2, 0)]` — no error of any kind. -/
theorem run_iterations_unchecked_cex :
    runFullDesign Tzero pm0 ("2.0".data) (-1) uZ = Except.ok [(2, 0)] := by
  have hsplit : splitComma ("2.0".data) = ["2.0".data] := by decide
  have h2 : pyFloatParse (pyStrip ("2.0".data)) = some ⟨false, [2], [0], none⟩ := by decide
  have hp : safe_float_list ("2.0".data) = ([2], []) := by
    rw [safe_float_list, safe_float_list_foldl]
    simp only [hsplit, List.filterMap_cons, List.filterMap_nil, List.filter_cons,
      List.filter_nil, pyFloat, h2, Option.map_some, Option.isNone_some]
    norm_num [floatVal, digitsToNat, List.foldl]
  rw [runFullDesign, hp]
  simp only [List.isEmpty_cons, Bool.false_eq_true, if_false]
  rw [runStudy_eq]
  norm_num [List.range_succ]
  intro a ha
  omega

/-- C7 amended: an empty (or all-invalid, hence empty after parsing) width
list makes the handler report `"Invalid B list!"` and run no simulation;
but `iterations` is never validated: for a non-empty parsed width list the
study runs and returns results for every `iterations`, including
`iterations <= 0` (no `InvalidConfiguration` exists; in Python,
`iterations = 0` exactly would surface as a `ZeroDivisionError` at the
percentage computation, not as a configuration error). -/
theorem run_validation_behavior :
    (∀ (T : Transcendental) (pm : Params) (n : Int) (u : Nat → ℚ) (text : List Char),
        (safe_float_list text).1 = [] →
        runFullDesign T pm text n u = Except.error ("Invalid B list!".data)) ∧
    (∀ (T : Transcendental) (pm : Params) (n : Int) (u : Nat → ℚ) (text : List Char),
        (safe_float_list text).1 ≠ [] →
        runFullDesign T pm text n u =
          Except.ok (runStudy T pm n (safe_float_list text).1 ⟨u, 0⟩).1) := by
  constructor
  · intro T pm n u text h
    rw [runFullDesign]
    simp [h]
  · intro T pm n u text h
    rw [runFullDesign]
    simp [List.isEmpty_iff, h]

/-- C7 amended witness: the all-invalid text `"abc"` yields the error with
no simulation, while text `"2.0"` with `iterations = -1` yields an ok
result list. -/
theorem run_validation_behavior_witness :
    runFullDesign Tzero pm0 ("abc".data) 300 uZ = Except.error ("Invalid B list!".data) ∧
    runFullDesign Tzero pm0 ("2.0".data) (-1) u01 =
      Except.ok (runStudy Tzero pm0 (-1) (safe_float_list ("2.0".data)).1 ⟨u01, 0⟩).1 := by
  constructor
  · refine run_validation_behavior.1 Tzero pm0 300 uZ ("abc".data) ?_
    have hsplit : splitComma ("abc".data) = ["abc".data] := by decide
    have h3 : pyFloatParse (pyStrip ("abc".data)) = none := by decide
    rw [safe_float_list, safe_float_list_foldl]
    simp [hsplit, pyFloat, h3]
  · refine run_validation_behavior.2 Tzero pm0 (-1) u01 ("2.0".data) ?_
    have hsplit : splitComma ("2.0".data) = ["2.0".data] := by decide
    have h2 : pyFloatParse (pyStrip ("2.0".data)) = some ⟨false, [2], [0], none⟩ := by decide
    rw [safe_float_list, safe_float_list_foldl]
    simp [hsplit, pyFloat, h2]

end App
